import Mathlib

set_option maxHeartbeats 1000000

/-!
Shallow embedding of `src/main.py` (EC2 Power Switch).

The embedding covers the data model, the remote-state query
(`get_ec2_instance_states`), the store merge (`update_instance_status`),
the elapsed-time interpolation, the burst-control globals and the
status-watching worker loop.  Python `datetime` / `timedelta` values are
modelled as integer seconds; `subprocess.run` results are modelled as
explicit records carrying the return code, the parsed JSON payload
(`none` standing for a payload that `json.loads` rejects) and the stderr
text.  A raised Python exception is modelled as `Except.error` carrying
the message.  `OrderedDict` is modelled as an association list in
insertion order.
-/

/-- The `EC2InstanceConfig` dataclass (main.py lines 16-21). -/
structure EC2InstanceConfig where
  id : String
  display_name : String
  user : String
  directory : Option String
deriving DecidableEq

/-- The `EC2InstanceStatus` dataclass (main.py lines 24-31); the
`timedelta | None` field `elapsed_time` is seconds as `Option Int`. -/
structure EC2InstanceStatus where
  config : EC2InstanceConfig
  id : String
  name : String
  state : String
  public_ip : Option String
  elapsed_time : Option Int
deriving DecidableEq

/-- One parsed row of the `describe-instances` JSON payload:
`[InstanceId, Name tag (null possible), State.Name, PublicIpAddress (null
possible), LaunchTime]`, with `LaunchTime` already parsed to epoch
seconds. -/
structure InstanceItem where
  id : String
  name : Option String
  state : String
  public_ip : Option String
  launch_time : Int
deriving DecidableEq

/-- Result of `subprocess.run` for the describe-instances query: return
code, parsed JSON payload (`none` models a `json.loads` failure on the
stdout text) and stderr text. -/
structure QueryCommandResult where
  returncode : Int
  stdout : Option (List (List InstanceItem))
  stderr : String
deriving DecidableEq

/-- Result of `subprocess.run` for a start/stop command; the payload rows
are `[InstanceId, CurrentState.Name]` pairs. -/
structure CommandResult where
  returncode : Int
  stdout : Option (List (String × String))
  stderr : String
deriving DecidableEq

/-- `OrderedDict` as an association list in insertion order. -/
abbrev ODict (β : Type) := List (String × β)

abbrev EC2InstanceConfigCollection := ODict EC2InstanceConfig

abbrev EC2InstanceStatusCollection := ODict EC2InstanceStatus

/-- Dictionary lookup `d[k]`: the first entry with the key. -/
def odGet {β : Type} : ODict β → String → Option β
  | [], _ => none
  | p :: rest, k => if p.1 = k then some p.2 else odGet rest k

/-- Dictionary assignment `d[k] = v`: replaces the entry in place when
the key exists (keeping its position), otherwise appends at the end. -/
def odSet {β : Type} : ODict β → String → β → ODict β
  | [], k, v => [(k, v)]
  | p :: rest, k, v => if p.1 = k then (k, v) :: rest else p :: odSet rest k v

/-- The keys of the dictionary, in order. -/
def odKeys {β : Type} (m : ODict β) : List String := m.map Prod.fst

/-- The expression `items[1] if items[1] else fallback` (main.py line
84).  Python truthiness: `None` and the empty string both select the
fallback. -/
def coalesce (v : Option String) (fallback : String) : String :=
  match v with
  | none => fallback
  | some s => if s = "" then fallback else s

/-- The expression `items[3] if items[3] else None` (main.py line 86):
the empty string collapses to `None`. -/
def truthyOrNone (v : Option String) : Option String :=
  match v with
  | none => none
  | some s => if s = "" then none else some s

/-- Python truthiness of a `timedelta | None` value: `None` and a zero
delta are falsy, every other delta is truthy. -/
def timedeltaTruthy : Option Int → Bool
  | none => false
  | some d => decide (d ≠ 0)

/-- Construction of one `EC2InstanceStatus` from a parsed row inside
`get_ec2_instance_states` (main.py lines 76-88):
`elapsed_time = current_time - launch_time if state == 'running' else None`. -/
def mkStatus (current_time : Int) (config_item : EC2InstanceConfig)
    (item : InstanceItem) : EC2InstanceStatus :=
  { config := config_item
    id := item.id
    name := coalesce item.name config_item.display_name
    state := item.state
    public_ip := truthyOrNone item.public_ip
    elapsed_time :=
      if item.state = "running" then some (current_time - item.launch_time) else none }

/-- The nested loops of `get_ec2_instance_states` (main.py lines 74-88):
builds the fresh status dictionary row by row; a configured-id lookup
miss models the `KeyError` raised by `config[id]` on line 77. -/
def buildStates (config : EC2InstanceConfigCollection) (current_time : Int) :
    List InstanceItem → EC2InstanceStatusCollection →
    Except String EC2InstanceStatusCollection
  | [], instances => .ok instances
  | item :: rest, instances =>
    match odGet config item.id with
    | none => .error item.id
    | some config_item =>
        buildStates config current_time rest
          (odSet instances item.id (mkStatus current_time config_item item))

/-- `get_ec2_instance_states` (main.py lines 59-89): raises (returns
`.error`) on a non-zero return code (carrying the stderr text), on a
payload that `json.loads` rejects, or on a configured-id `KeyError`;
otherwise returns the freshly built status dictionary.  The nested
reservation lists are walked in order, which is `List.join` of the
payload. -/
def get_ec2_instance_states (config : EC2InstanceConfigCollection)
    (current_time : Int) (result : QueryCommandResult) :
    Except String EC2InstanceStatusCollection :=
  if result.returncode ≠ 0 then .error result.stderr
  else
    match result.stdout with
    | none => .error "JSONDecodeError"
    | some out => buildStates config current_time out.flatten []

/-- The merge loop of `update_instance_status` (main.py lines 178-179):
`states[instance.id] = instance` for each fresh status, in order. -/
def merge (states new_states : EC2InstanceStatusCollection) :
    EC2InstanceStatusCollection :=
  new_states.foldl (fun s p => odSet s p.1 p.2) states

/-- `update_instance_status` (main.py lines 172-180): queries, then
merges the fresh statuses into the store.  The result is the store after
the attempt paired with the raised exception, if any: the query raises
before the first store mutation, so on failure the store is returned
untouched. -/
def update_instance_status (config : EC2InstanceConfigCollection)
    (states : EC2InstanceStatusCollection) (current_time : Int)
    (result : QueryCommandResult) : EC2InstanceStatusCollection × Option String :=
  match get_ec2_instance_states config current_time result with
  | .error e => (states, some e)
  | .ok new_states => (merge states new_states, none)

/-- One interpolation step on one status (main.py lines 204-206):
`if instance.elapsed_time:` is a Python truthiness test, so `None` and a
zero delta are both skipped; otherwise one second is added in place. -/
def interpolateStatus (st : EC2InstanceStatus) : EC2InstanceStatus :=
  if timedeltaTruthy st.elapsed_time then
    { st with elapsed_time := st.elapsed_time.map (fun d => d + 1) }
  else st

/-- The interpolation loop over the whole store (main.py lines 204-206). -/
def interpolate (states : EC2InstanceStatusCollection) :
    EC2InstanceStatusCollection :=
  states.map (fun p => (p.1, interpolateStatus p.2))

/-- The process-wide scheduling globals `status_watching_burst` and
`status_watching_immidiate` (main.py lines 183-184; the source spells
the flag `immidiate`). -/
structure BurstControl where
  status_watching_burst : Int
  status_watching_immidiate : Bool
deriving DecidableEq

/-- `burst_status_watching` (main.py lines 211-214): unconditionally
resets the burst counter to 10 and raises the immediate flag. -/
def burst_status_watching (_bc : BurstControl) : BurstControl :=
  { status_watching_burst := 10, status_watching_immidiate := true }

/-- The helper `_send_command` (main.py lines 92-99): raises on a
non-zero return code (with the stderr text) or on a payload that
`json.loads` rejects; on success it only prints the rows, causing no
state change. -/
def send_command (result : CommandResult) : Except String (List (String × String)) :=
  if result.returncode ≠ 0 then .error result.stderr
  else
    match result.stdout with
    | none => .error "JSONDecodeError"
    | some out => .ok out

/-- `start_ec2_instance` (main.py lines 101-108) as its effect on the
burst globals: sends the start command and then — only reached when the
command did not raise — enters burst mode.  Returns the updated burst
globals, or the exception that escaped the call. -/
def start_ec2_instance (result : CommandResult) (bc : BurstControl) :
    Except String BurstControl :=
  match send_command result with
  | .error e => .error e
  | .ok _ => .ok (burst_status_watching bc)

/-- `stop_ec2_instance` (main.py lines 111-118): same shape as
`start_ec2_instance`. -/
def stop_ec2_instance (result : CommandResult) (bc : BurstControl) :
    Except String BurstControl :=
  match send_command result with
  | .error e => .error e
  | .ok _ => .ok (burst_status_watching bc)

/-- The interval choice on main.py line 197:
`interval = default_interval if status_watching_burst <= 0 else burst_interval`. -/
def pickInterval (default_interval burst_interval : Nat) (bc : BurstControl) : Nat :=
  if bc.status_watching_burst ≤ 0 then default_interval else burst_interval

/-- The worker loop state: the `tick` counter (its value after the
previous iteration; 0 before the first), the burst globals and the
store. -/
structure WorkerState where
  tick : Nat
  burst : BurstControl
  states : EC2InstanceStatusCollection
deriving DecidableEq

/-- Outcome of one loop iteration: the state afterwards, whether the
iteration took the reconciliation branch, and the exception that escaped
the loop body, if any. -/
structure StepResult where
  state : WorkerState
  reconciled : Bool
  error : Option String
deriving DecidableEq

/-- One iteration of the `while continue_watching:` loop of
`status_watching_worker` (main.py lines 196-208).  The interval is picked
from the burst counter, the tick counter is incremented, and the
iteration either reconciles (decrementing the burst counter by 1 when it
is positive and clearing the immediate flag) or interpolates.  The loop
body has no exception handler, so an exception raised by the query
escapes the loop: it is recorded in `error` and the store is left exactly
as the failed attempt left it. -/
def status_watching_step (config : EC2InstanceConfigCollection)
    (default_interval burst_interval : Nat) (current_time : Int)
    (result : QueryCommandResult) (s : WorkerState) : StepResult :=
  let interval := pickInterval default_interval burst_interval s.burst
  let tick := s.tick + 1
  if tick % interval = 0 ∨ s.burst.status_watching_immidiate = true then
    match update_instance_status config s.states current_time result with
    | (states, some e) =>
        { state := { tick := tick, burst := s.burst, states := states }
          reconciled := true
          error := some e }
    | (states, none) =>
        { state :=
            { tick := tick
              burst :=
                { status_watching_burst :=
                    s.burst.status_watching_burst -
                      (if 0 < s.burst.status_watching_burst then 1 else 0)
                  status_watching_immidiate := false }
              states := states }
          reconciled := true
          error := none }
  else
    { state := { tick := tick, burst := s.burst, states := interpolate s.states }
      reconciled := false
      error := none }

/-- A finite run of the worker loop: one `(current time, query result)`
pair per iteration executed before `continue_watching` is cleared.  The
loop body has no exception handler, so a raised exception terminates the
run with that exception. -/
def status_watching_run (config : EC2InstanceConfigCollection)
    (default_interval burst_interval : Nat) :
    List (Int × QueryCommandResult) → WorkerState → Except String WorkerState
  | [], s => .ok s
  | (t, result) :: rest, s =>
    let res := status_watching_step config default_interval burst_interval t result s
    match res.error with
    | none => status_watching_run config default_interval burst_interval rest res.state
    | some e => .error e

/-- A sample configuration entry, used by concrete witnesses. -/
def sampleConfig : EC2InstanceConfig :=
  { id := "i-1", display_name := "dev-box", user := "ec2-user", directory := none }

/-- A one-entry configured collection. -/
def sampleConfigs : EC2InstanceConfigCollection := [("i-1", sampleConfig)]

/-- A query payload row reporting `i-1` running since time 100. -/
def sampleItem : InstanceItem :=
  { id := "i-1", name := some "dev", state := "running",
    public_ip := some "1.2.3.4", launch_time := 100 }

/-- A successful describe-instances invocation reporting `sampleItem`. -/
def okQuery : QueryCommandResult :=
  { returncode := 0, stdout := some [[sampleItem]], stderr := "" }

/-- A failed describe-instances invocation (non-zero return code). -/
def failQuery : QueryCommandResult :=
  { returncode := 1, stdout := some [], stderr := "aws error" }

/-- A successful start/stop invocation. -/
def okCommand : CommandResult :=
  { returncode := 0, stdout := some [("i-1", "pending")], stderr := "" }

/-- A failed start/stop invocation (non-zero return code). -/
def failCommand : CommandResult :=
  { returncode := 1, stdout := some [], stderr := "boom" }

/-- The store produced by a successful reconciliation of `okQuery`
against the empty store at time 200. -/
def sampleStates : EC2InstanceStatusCollection :=
  [("i-1", mkStatus 200 sampleConfig sampleItem)]

/-- A status whose elapsed running time is exactly zero, refuting the
claim that every present elapsed time is advanced by interpolation. -/
def zeroElapsedStatus : EC2InstanceStatus :=
  { config := sampleConfig, id := "i-1", name := "dev", state := "running",
    public_ip := none, elapsed_time := some 0 }

/-- A status running for five seconds, used by the C5 witness. -/
def fiveElapsedStatus : EC2InstanceStatus :=
  { config := sampleConfig, id := "i-1", name := "dev", state := "running",
    public_ip := none, elapsed_time := some 5 }

/-- A query payload row reporting `i-1` stopped. -/
def stoppedItem : InstanceItem :=
  { id := "i-1", name := some "dev", state := "stopped",
    public_ip := none, launch_time := 100 }

/-- A query payload row with an empty name tag and an empty public
address, used by the C10 witness. -/
def emptyFieldsItem : InstanceItem :=
  { id := "i-1", name := some "", state := "stopped",
    public_ip := some "", launch_time := 100 }

/-- A second configured instance, absent from the sample query payload. -/
def otherStatus : EC2InstanceStatus :=
  { config := { id := "i-2", display_name := "db-box", user := "ec2-user", directory := none }
    id := "i-2", name := "db-box", state := "stopped",
    public_ip := none, elapsed_time := none }

/-- A prior store holding only the instance the query does not report. -/
def preStates : EC2InstanceStatusCollection := [("i-2", otherStatus)]

example : get_ec2_instance_states sampleConfigs 200 okQuery = .ok sampleStates := by rfl

example : update_instance_status sampleConfigs [] 200 failQuery = ([], some "aws error") := by rfl

theorem odGet_odSet_self {β : Type} (m : ODict β) (k : String) (v : β) :
    odGet (odSet m k v) k = some v := by
  induction m with
  | nil => simp [odSet, odGet]
  | cons p rest ih =>
    by_cases h : p.1 = k
    · simp [odSet, odGet, h]
    · simp [odSet, odGet, h, ih]

theorem odGet_odSet_ne {β : Type} (m : ODict β) (k k' : String) (v : β)
    (h : k' ≠ k) : odGet (odSet m k v) k' = odGet m k' := by
  induction m with
  | nil => simp [odSet, odGet, Ne.symm h]
  | cons p rest ih =>
    by_cases hp : p.1 = k
    · have hp' : p.1 ≠ k' := by rw [hp]; exact Ne.symm h
      simp [odSet, odGet, hp, hp', Ne.symm h]
    · by_cases hk : p.1 = k' <;> simp [odSet, odGet, hp, hk, ih, h, Ne.symm h]

theorem mem_odSet {β : Type} (m : ODict β) (k : String) (v : β) (q : String × β)
    (h : q ∈ odSet m k v) : q = (k, v) ∨ q ∈ m := by
  induction m with
  | nil => simpa [odSet] using h
  | cons p rest ih =>
    by_cases hp : p.1 = k
    · simp only [odSet, if_pos hp, List.mem_cons] at h
      rcases h with h | h
      · exact Or.inl h
      · exact Or.inr (List.mem_cons_of_mem _ h)
    · simp only [odSet, if_neg hp, List.mem_cons] at h
      rcases h with h | h
      · exact Or.inr (by simp [h])
      · rcases ih h with h1 | h1
        · exact Or.inl h1
        · exact Or.inr (List.mem_cons_of_mem _ h1)

theorem odSet_odGet_id {β : Type} (m : ODict β) (k : String) (v : β)
    (h : odGet m k = some v) : odSet m k v = m := by
  induction m with
  | nil => simp [odGet] at h
  | cons p rest ih =>
    by_cases hp : p.1 = k
    · simp only [odGet, if_pos hp] at h
      have hpv : p = (k, v) := by
        rcases p with ⟨a, b⟩
        simp only [Option.some.injEq] at h
        simp_all
      simp [odSet, hp, hpv]
    · simp only [odGet, if_neg hp] at h
      simp [odSet, hp, ih h]

theorem odKeys_odSet_mem {β : Type} (m : ODict β) (k : String) (v : β)
    (h : k ∈ odKeys m) : odKeys (odSet m k v) = odKeys m := by
  induction m with
  | nil => simp [odKeys] at h
  | cons p rest ih =>
    by_cases hp : p.1 = k
    · simp [odSet, odKeys, hp]
    · have h' : k ∈ odKeys rest := by
        simp only [odKeys, List.map_cons, List.mem_cons] at h
        rcases h with h | h
        · exact absurd h.symm hp
        · exact h
      have hih := ih h'
      simp only [odKeys] at hih
      simp [odSet, odKeys, hp, hih]

theorem odKeys_odSet_not_mem {β : Type} (m : ODict β) (k : String) (v : β)
    (h : k ∉ odKeys m) : odKeys (odSet m k v) = odKeys m ++ [k] := by
  induction m with
  | nil => simp [odSet, odKeys]
  | cons p rest ih =>
    have hp : p.1 ≠ k := by
      intro hc
      exact h (by simp [odKeys, hc])
    have h' : k ∉ odKeys rest := by
      intro hc
      exact h (by simp [odKeys, hc] at hc ⊢; exact Or.inr hc)
    have hih := ih h'
    simp only [odKeys] at hih
    simp [odSet, odKeys, hp, hih]

theorem mem_odKeys_odSet {β : Type} (m : ODict β) (k k' : String) (v : β)
    (h : k' ∈ odKeys (odSet m k v)) : k' ∈ odKeys m ∨ k' = k := by
  by_cases hk : k ∈ odKeys m
  · rw [odKeys_odSet_mem m k v hk] at h
    exact Or.inl h
  · rw [odKeys_odSet_not_mem m k v hk] at h
    rcases List.mem_append.mp h with h | h
    · exact Or.inl h
    · exact Or.inr (by simpa using h)

theorem nodup_odKeys_odSet {β : Type} (m : ODict β) (k : String) (v : β)
    (h : (odKeys m).Nodup) : (odKeys (odSet m k v)).Nodup := by
  by_cases hk : k ∈ odKeys m
  · rw [odKeys_odSet_mem m k v hk]; exact h
  · rw [odKeys_odSet_not_mem m k v hk]
    simp [List.nodup_append, h, hk]

theorem merge_nil (states : EC2InstanceStatusCollection) : merge states [] = states := rfl

theorem merge_cons (states : EC2InstanceStatusCollection)
    (p : String × EC2InstanceStatus) (rest : EC2InstanceStatusCollection) :
    merge states (p :: rest) = merge (odSet states p.1 p.2) rest := rfl

theorem odGet_merge_not_mem (states ns : EC2InstanceStatusCollection) (k : String)
    (h : ∀ q ∈ ns, q.1 ≠ k) : odGet (merge states ns) k = odGet states k := by
  induction ns generalizing states with
  | nil => rfl
  | cons p rest ih =>
    have hp : p.1 ≠ k := h p (by simp)
    have hrest : ∀ q ∈ rest, q.1 ≠ k := fun q hq => h q (by simp [hq])
    rw [merge_cons, ih _ hrest, odGet_odSet_ne _ _ _ _ (Ne.symm hp)]

theorem odGet_merge_isSome (states ns : EC2InstanceStatusCollection) (k : String)
    (h : (odGet states k).isSome = true) :
    (odGet (merge states ns) k).isSome = true := by
  induction ns generalizing states with
  | nil => exact h
  | cons p rest ih =>
    rw [merge_cons]
    apply ih
    by_cases hp : k = p.1
    · subst hp
      rw [odGet_odSet_self]
      rfl
    · rw [odGet_odSet_ne _ _ _ _ hp]
      exact h

theorem merge_idem (ns : EC2InstanceStatusCollection)
    (hns : (odKeys ns).Nodup) :
    ∀ states, merge (merge states ns) ns = merge states ns := by
  induction ns with
  | nil => intro s; rfl
  | cons p rest ih =>
    have hk : p.1 ∉ odKeys rest := by
      have := hns
      simp only [odKeys, List.map_cons, List.nodup_cons] at this
      exact this.1
    have hrest : (odKeys rest).Nodup := by
      have := hns
      simp only [odKeys, List.map_cons, List.nodup_cons] at this
      exact this.2
    intro s
    rw [merge_cons, merge_cons]
    have hne : ∀ q ∈ rest, q.1 ≠ p.1 := by
      intro q hq hc
      exact hk (hc ▸ List.mem_map_of_mem Prod.fst hq)
    have hget : odGet (merge (odSet s p.1 p.2) rest) p.1 = some p.2 := by
      rw [odGet_merge_not_mem _ _ _ hne, odGet_odSet_self]
    rw [odSet_odGet_id _ _ _ hget]
    exact ih hrest (odSet s p.1 p.2)

theorem buildStates_nodup (config : EC2InstanceConfigCollection) (t : Int) :
    ∀ (items : List InstanceItem) (acc res : EC2InstanceStatusCollection),
      (odKeys acc).Nodup → buildStates config t items acc = .ok res →
      (odKeys res).Nodup := by
  intro items
  induction items with
  | nil =>
    intro acc res ha h
    simp only [buildStates, Except.ok.injEq] at h
    exact h ▸ ha
  | cons item rest ih =>
    intro acc res ha h
    cases hc : odGet config item.id with
    | none => simp [buildStates, hc] at h
    | some config_item =>
      simp only [buildStates, hc] at h
      exact ih _ _ (nodup_odKeys_odSet _ _ _ ha) h

theorem buildStates_keys (config : EC2InstanceConfigCollection) (t : Int) :
    ∀ (items : List InstanceItem) (acc res : EC2InstanceStatusCollection),
      buildStates config t items acc = .ok res →
      ∀ q ∈ res, q.1 ∈ odKeys acc ∨ q.1 ∈ items.map InstanceItem.id := by
  intro items
  induction items with
  | nil =>
    intro acc res h q hq
    simp only [buildStates, Except.ok.injEq] at h
    exact Or.inl (h ▸ List.mem_map_of_mem Prod.fst hq)
  | cons item rest ih =>
    intro acc res h q hq
    cases hc : odGet config item.id with
    | none => simp [buildStates, hc] at h
    | some config_item =>
      simp only [buildStates, hc] at h
      rcases ih _ _ h q hq with h1 | h1
      · rcases mem_odKeys_odSet _ _ _ _ h1 with h2 | h2
        · exact Or.inl h2
        · exact Or.inr (by simp [h2])
      · exact Or.inr (by simp [h1])

theorem get_ok_nodup (config : EC2InstanceConfigCollection) (t : Int)
    (r : QueryCommandResult) (ns : EC2InstanceStatusCollection)
    (h : get_ec2_instance_states config t r = .ok ns) : (odKeys ns).Nodup := by
  unfold get_ec2_instance_states at h
  by_cases hr : r.returncode ≠ 0
  · simp [hr] at h
  · cases hs : r.stdout with
    | none => simp [hr, hs] at h
    | some out =>
      simp only [hr, hs, if_neg hr] at h
      exact buildStates_nodup config t out.flatten [] ns (by simp [odKeys]) h

theorem get_ok_keys (config : EC2InstanceConfigCollection) (t : Int)
    (r : QueryCommandResult) (ns : EC2InstanceStatusCollection)
    (out : List (List InstanceItem))
    (h : get_ec2_instance_states config t r = .ok ns) (hs : r.stdout = some out) :
    ∀ q ∈ ns, q.1 ∈ out.flatten.map InstanceItem.id := by
  unfold get_ec2_instance_states at h
  by_cases hr : r.returncode ≠ 0
  · simp [hr] at h
  · simp only [hr, hs, if_neg hr] at h
    intro q hq
    rcases buildStates_keys config t out.flatten [] ns h q hq with h1 | h1
    · simp [odKeys] at h1
    · exact h1

theorem interpolateStatus_none (st : EC2InstanceStatus)
    (h : st.elapsed_time = none) : interpolateStatus st = st := by
  simp [interpolateStatus, timedeltaTruthy, h]

/-- C1: on every loop iteration the scheduler picks
`interval = burst interval (6)` when the burst counter is positive and
the normal interval (60) otherwise, and the iteration takes the
reconciliation branch exactly when the incremented tick count is
divisible by the interval or the immediate flag is set; concretely,
starting from normal mode with no immediate request, the iteration with
tick count 59 does not reconcile and the one with tick count 60 does. -/
theorem C1_scheduler_tick_rule :
    (∀ bc : BurstControl,
        pickInterval 60 6 bc = if 0 < bc.status_watching_burst then 6 else 60)
    ∧ (∀ (config : EC2InstanceConfigCollection) (t : Int)
          (r : QueryCommandResult) (s : WorkerState),
        (status_watching_step config 60 6 t r s).reconciled = true ↔
          ((s.tick + 1) % pickInterval 60 6 s.burst = 0 ∨
            s.burst.status_watching_immidiate = true))
    ∧ (status_watching_step sampleConfigs 60 6 200 okQuery
        { tick := 58
          burst := { status_watching_burst := 0, status_watching_immidiate := false }
          states := [] }).reconciled = false
    ∧ (status_watching_step sampleConfigs 60 6 200 okQuery
        { tick := 59
          burst := { status_watching_burst := 0, status_watching_immidiate := false }
          states := [] }).reconciled = true := by
  refine ⟨?_, ?_, ?_, ?_⟩
  · intro bc
    unfold pickInterval
    by_cases h : bc.status_watching_burst ≤ 0
    · rw [if_pos h, if_neg (by omega)]
    · rw [if_neg h, if_pos (by omega)]
  · intro config t r s
    by_cases hcond : (s.tick + 1) % pickInterval 60 6 s.burst = 0 ∨
        s.burst.status_watching_immidiate = true
    · rcases hu : update_instance_status config s.states t r with ⟨sts, e⟩
      cases e <;> simp [status_watching_step, hcond, hu]
    · simp [status_watching_step, hcond]
  · rfl
  · rfl

/-- C3: if the remote state query fails (non-zero completion or a
payload that the JSON decoder rejects), the reconciliation attempt
raises before any store mutation, so the store after the failed attempt
equals the store before it. -/
theorem C3_no_mutation_on_query_failure (config : EC2InstanceConfigCollection)
    (states : EC2InstanceStatusCollection) (t : Int) (r : QueryCommandResult)
    (h : r.returncode ≠ 0 ∨ r.stdout = none) :
    (update_instance_status config states t r).1 = states
    ∧ (update_instance_status config states t r).2.isSome = true := by
  unfold update_instance_status get_ec2_instance_states
  rcases h with h | h
  · simp [h]
  · by_cases hr : r.returncode ≠ 0
    · simp [hr]
    · simp [hr, h]

/-- C3 witness: a concrete failed query (non-zero return code) leaves a
concrete store untouched and raises. -/
theorem C3_no_mutation_on_query_failure_witness :
    (update_instance_status sampleConfigs sampleStates 200 failQuery).1 = sampleStates
    ∧ (update_instance_status sampleConfigs sampleStates 200 failQuery).2.isSome = true :=
  C3_no_mutation_on_query_failure sampleConfigs sampleStates 200 failQuery
    (Or.inl (by decide))

/-- C5 counterexample: a status whose elapsed running time is present
but exactly zero is NOT advanced by an interpolation tick — the
`if instance.elapsed_time:` truthiness test treats a zero delta as
falsy, so the value stays zero instead of becoming one. -/
theorem C5_counterexample_zero_elapsed_frozen :
    (interpolateStatus zeroElapsedStatus).elapsed_time = some 0
    ∧ (interpolateStatus zeroElapsedStatus).elapsed_time ≠ some (0 + 1) := by
  constructor
  · rfl
  · decide

/-- C5 (amended): on an interpolation tick, a status whose elapsed
running time is present and nonzero is advanced by exactly one time
unit; a present value of exactly zero is left unchanged (the truthiness
test treats a zero delta like an absent one); an absent value stays
absent.  Values are monotonically non-decreasing in all cases. -/
theorem C5_amended_interpolation (st : EC2InstanceStatus) :
    (st.elapsed_time = none → (interpolateStatus st).elapsed_time = none)
    ∧ (∀ d : Int, st.elapsed_time = some d →
        (interpolateStatus st).elapsed_time = some (if d = 0 then d else d + 1))
    ∧ (∀ d d' : Int, st.elapsed_time = some d →
        (interpolateStatus st).elapsed_time = some d' → d ≤ d') := by
  refine ⟨?_, ?_, ?_⟩
  · intro h
    simp [interpolateStatus, timedeltaTruthy, h]
  · intro d h
    by_cases hd : d = 0
    · simp [interpolateStatus, timedeltaTruthy, h, hd]
    · simp [interpolateStatus, timedeltaTruthy, h, hd]
  · intro d d' h h'
    by_cases hd : d = 0
    · simp [interpolateStatus, timedeltaTruthy, h, hd] at h'
      omega
    · simp [interpolateStatus, timedeltaTruthy, h, hd] at h'
      omega

/-- C5 witness: a present nonzero elapsed time is advanced by exactly
one second. -/
theorem C5_amended_interpolation_witness :
    (interpolateStatus fiveElapsedStatus).elapsed_time = some 6 := by
  have h := (C5_amended_interpolation fiveElapsedStatus).2.1 5 rfl
  simpa using h

/-- C7: a tuple merged by reconciliation gets
`elapsed_time = current_time - launch_time` exactly when the reported
lifecycle state is `running` and `none` otherwise; and a status built
from a `stopped` report keeps an absent elapsed time through every
number of subsequent interpolation ticks. -/
theorem C7_elapsed_lifecycle_invariant (cfg : EC2InstanceConfig)
    (item : InstanceItem) (t : Int) (n : Nat) :
    ((mkStatus t cfg item).elapsed_time
        = if item.state = "running" then some (t - item.launch_time) else none)
    ∧ (item.state = "stopped" →
        (interpolateStatus^[n] (mkStatus t cfg item)).elapsed_time = none) := by
  constructor
  · rfl
  · intro h
    have h0 : (mkStatus t cfg item).elapsed_time = none := by
      simp [mkStatus, h]
    rw [Function.iterate_fixed (interpolateStatus_none _ h0)]
    exact h0

/-- C7 witness: a stopped report yields an absent elapsed time, still
absent after three interpolation ticks. -/
theorem C7_elapsed_lifecycle_invariant_witness :
    (interpolateStatus^[3] (mkStatus 200 sampleConfig stoppedItem)).elapsed_time = none :=
  (C7_elapsed_lifecycle_invariant sampleConfig stoppedItem 200 3).2 rfl

/-- C10: at the merge boundary, a remote-reported name that is absent or
the empty string is replaced by the configured display name, and a
remote-reported public address that is absent or the empty string yields
an absent address; present nonempty values pass through. -/
theorem C10_empty_string_coalescing (cfg : EC2InstanceConfig) (t : Int)
    (item : InstanceItem) :
    ((item.name = none ∨ item.name = some "") →
        (mkStatus t cfg item).name = cfg.display_name)
    ∧ ((item.public_ip = none ∨ item.public_ip = some "") →
        (mkStatus t cfg item).public_ip = none)
    ∧ (∀ s : String, item.name = some s → s ≠ "" →
        (mkStatus t cfg item).name = s)
    ∧ (∀ s : String, item.public_ip = some s → s ≠ "" →
        (mkStatus t cfg item).public_ip = some s) := by
  refine ⟨?_, ?_, ?_, ?_⟩
  · rintro (h | h) <;> simp [mkStatus, coalesce, h]
  · rintro (h | h) <;> simp [mkStatus, truthyOrNone, h]
  · intro s h hs
    simp [mkStatus, coalesce, h, hs]
  · intro s h hs
    simp [mkStatus, truthyOrNone, h, hs]

/-- C10 witness: empty-string name and address coalesce like missing
ones. -/
theorem C10_empty_string_coalescing_witness :
    (mkStatus 200 sampleConfig emptyFieldsItem).name = sampleConfig.display_name
    ∧ (mkStatus 200 sampleConfig emptyFieldsItem).public_ip = none :=
  ⟨(C10_empty_string_coalescing sampleConfig 200 emptyFieldsItem).1 (Or.inr rfl),
   (C10_empty_string_coalescing sampleConfig 200 emptyFieldsItem).2.1 (Or.inr rfl)⟩

/-- C2: a start or stop action whose command completes without raising
sets the burst counter to 10 and the immediate flag synchronously with
the action; from that burst state, the next loop iteration (at any tick
count) takes the reconciliation branch via the immediate override, and
when the query succeeds the burst counter is 9 and the immediate flag is
cleared afterwards. -/
theorem C2_burst_trigger_contract (cmd : CommandResult)
    (out : List (String × String)) (bc : BurstControl)
    (h : send_command cmd = .ok out)
    (config : EC2InstanceConfigCollection) (t : Int) (qr : QueryCommandResult)
    (ns : EC2InstanceStatusCollection)
    (hq : get_ec2_instance_states config t qr = .ok ns)
    (k : Nat) (states : EC2InstanceStatusCollection) :
    start_ec2_instance cmd bc
        = .ok { status_watching_burst := 10, status_watching_immidiate := true }
    ∧ stop_ec2_instance cmd bc
        = .ok { status_watching_burst := 10, status_watching_immidiate := true }
    ∧ (status_watching_step config 60 6 t qr
        { tick := k
          burst := { status_watching_burst := 10, status_watching_immidiate := true }
          states := states }).reconciled = true
    ∧ (status_watching_step config 60 6 t qr
        { tick := k
          burst := { status_watching_burst := 10, status_watching_immidiate := true }
          states := states }).state.burst
        = { status_watching_burst := 9, status_watching_immidiate := false } := by
  have hui : update_instance_status config states t qr = (merge states ns, none) := by
    unfold update_instance_status
    rw [hq]
  refine ⟨?_, ?_, ?_, ?_⟩
  · unfold start_ec2_instance
    rw [h]
    rfl
  · unfold stop_ec2_instance
    rw [h]
    rfl
  · simp [status_watching_step, hui]
  · simp [status_watching_step, hui]

/-- C2 witness: a concrete successful start from tick 3. -/
theorem C2_burst_trigger_contract_witness :
    start_ec2_instance okCommand
        { status_watching_burst := 0, status_watching_immidiate := false }
      = .ok { status_watching_burst := 10, status_watching_immidiate := true }
    ∧ (status_watching_step sampleConfigs 60 6 200 okQuery
        { tick := 3
          burst := { status_watching_burst := 10, status_watching_immidiate := true }
          states := [] }).state.burst
      = { status_watching_burst := 9, status_watching_immidiate := false } :=
  ⟨(C2_burst_trigger_contract okCommand [("i-1", "pending")]
      { status_watching_burst := 0, status_watching_immidiate := false } rfl
      sampleConfigs 200 okQuery sampleStates rfl 3 []).1,
   (C2_burst_trigger_contract okCommand [("i-1", "pending")]
      { status_watching_burst := 0, status_watching_immidiate := false } rfl
      sampleConfigs 200 okQuery sampleStates rfl 3 []).2.2.2⟩

/-- C4 counterexample: when the query of a reconciliation tick fails,
the worker run terminates with the raised exception even though a later
tick with a succeeding query was available — the loop does not continue
and never retries. -/
theorem C4_counterexample_loop_dies :
    status_watching_run sampleConfigs 60 6 [(200, failQuery), (201, okQuery)]
      { tick := 59
        burst := { status_watching_burst := 0, status_watching_immidiate := false }
        states := [] } = .error "aws error" := by
  rfl

/-- C4 (amended): a failed reconciliation attempt raises out of the
worker loop, which has no exception handler, so the loop terminates with
that exception and no subsequent tick runs (no retry). -/
theorem C4_amended_failure_terminates_loop (config : EC2InstanceConfigCollection)
    (default_interval burst_interval : Nat) (t : Int) (r : QueryCommandResult)
    (s : WorkerState) (rest : List (Int × QueryCommandResult)) (e : String)
    (hc : (s.tick + 1) % pickInterval default_interval burst_interval s.burst = 0 ∨
        s.burst.status_watching_immidiate = true)
    (hf : get_ec2_instance_states config t r = .error e) :
    status_watching_run config default_interval burst_interval ((t, r) :: rest) s
      = .error e := by
  have hui : update_instance_status config s.states t r = (s.states, some e) := by
    unfold update_instance_status
    rw [hf]
  simp [status_watching_run, status_watching_step, hc, hui]

/-- C4 witness for the amended claim: concrete failing reconciliation at
tick count 60 with two further ticks available. -/
theorem C4_amended_failure_terminates_loop_witness :
    status_watching_run sampleConfigs 60 6 [(200, failQuery), (201, okQuery), (202, okQuery)]
      { tick := 59
        burst := { status_watching_burst := 0, status_watching_immidiate := false }
        states := sampleStates } = .error "aws error" :=
  C4_amended_failure_terminates_loop sampleConfigs 60 6 200 failQuery
    { tick := 59
      burst := { status_watching_burst := 0, status_watching_immidiate := false }
      states := sampleStates }
    [(201, okQuery), (202, okQuery)] "aws error" (Or.inl (by decide)) rfl

/-- C6: a successful reconciliation never removes a key from the store,
and every key with no corresponding row in the query payload is left
with exactly the status value it had before the merge. -/
theorem C6_merge_frame (config : EC2InstanceConfigCollection) (t : Int)
    (r : QueryCommandResult) (states states' : EC2InstanceStatusCollection)
    (k : String)
    (h : update_instance_status config states t r = (states', none)) :
    ((odGet states k).isSome = true → (odGet states' k).isSome = true)
    ∧ (∀ out : List (List InstanceItem), r.stdout = some out →
        k ∉ out.flatten.map InstanceItem.id →
        odGet states' k = odGet states k) := by
  cases hg : get_ec2_instance_states config t r with
  | error e =>
    unfold update_instance_status at h
    rw [hg] at h
    simp at h
  | ok ns =>
    unfold update_instance_status at h
    rw [hg] at h
    have hs' : states' = merge states ns := by
      have := congrArg Prod.fst h
      simpa using this.symm
    subst hs'
    constructor
    · exact odGet_merge_isSome states ns k
    · intro out hout hk
      apply odGet_merge_not_mem
      intro q hq hc
      exact hk (hc ▸ get_ok_keys config t r ns out hg hout q hq)

/-- C6 witness: merging a payload that reports only `i-1` keeps the
`i-2` entry present and byte-for-byte unchanged. -/
theorem C6_merge_frame_witness :
    (odGet (merge preStates sampleStates) "i-2").isSome = true
    ∧ odGet (merge preStates sampleStates) "i-2" = odGet preStates "i-2" :=
  ⟨(C6_merge_frame sampleConfigs 200 okQuery preStates (merge preStates sampleStates)
      "i-2" rfl).1 (by decide),
   (C6_merge_frame sampleConfigs 200 okQuery preStates (merge preStates sampleStates)
      "i-2" rfl).2 [[sampleItem]] rfl (by decide)⟩

/-- C8 counterexample: a start action whose command fails with a
non-zero return code raises out of `_send_command` before
`burst_status_watching` is reached, so burst mode is NOT entered — the
claim that burst mode is entered for every outcome of the action command
is false. -/
theorem C8_counterexample_failed_action_no_burst :
    start_ec2_instance failCommand
        { status_watching_burst := 0, status_watching_immidiate := false }
      = .error "boom"
    ∧ start_ec2_instance failCommand
        { status_watching_burst := 0, status_watching_immidiate := false }
      ≠ .ok { status_watching_burst := 10, status_watching_immidiate := true } := by
  constructor
  · rfl
  · intro hc
    exact Except.noConfusion hc

/-- C8 (amended): burst mode is entered exactly when the action command
does not raise: on success both start and stop set the burst counter to
10 and the immediate flag; on failure the exception propagates out of
the action call and the burst globals are never touched. -/
theorem C8_amended_burst_iff_command_ok (cmd : CommandResult) (bc : BurstControl) :
    (∀ out : List (String × String), send_command cmd = .ok out →
        start_ec2_instance cmd bc
            = .ok { status_watching_burst := 10, status_watching_immidiate := true }
          ∧ stop_ec2_instance cmd bc
            = .ok { status_watching_burst := 10, status_watching_immidiate := true })
    ∧ (∀ e : String, send_command cmd = .error e →
        start_ec2_instance cmd bc = .error e
          ∧ stop_ec2_instance cmd bc = .error e) := by
  constructor
  · intro out h
    constructor
    · unfold start_ec2_instance
      rw [h]
      rfl
    · unfold stop_ec2_instance
      rw [h]
      rfl
  · intro e h
    constructor
    · unfold start_ec2_instance
      rw [h]
    · unfold stop_ec2_instance
      rw [h]

/-- C8 witness for the amended claim: a concrete success enters burst
mode, a concrete failure propagates the exception. -/
theorem C8_amended_burst_iff_command_ok_witness :
    start_ec2_instance okCommand
        { status_watching_burst := 3, status_watching_immidiate := false }
      = .ok { status_watching_burst := 10, status_watching_immidiate := true }
    ∧ stop_ec2_instance failCommand
        { status_watching_burst := 3, status_watching_immidiate := false }
      = .error "boom" :=
  ⟨((C8_amended_burst_iff_command_ok okCommand
      { status_watching_burst := 3, status_watching_immidiate := false }).1
      [("i-1", "pending")] rfl).1,
   ((C8_amended_burst_iff_command_ok failCommand
      { status_watching_burst := 3, status_watching_immidiate := false }).2
      "boom" rfl).2⟩

/-- C9: reconciling a second time with an identical remote response (and
the same current time) yields a store identical to the one produced by
the first reconciliation alone. -/
theorem C9_reconciliation_idempotent (config : EC2InstanceConfigCollection)
    (t : Int) (r : QueryCommandResult)
    (states states1 : EC2InstanceStatusCollection)
    (h : update_instance_status config states t r = (states1, none)) :
    update_instance_status config states1 t r = (states1, none) := by
  cases hg : get_ec2_instance_states config t r with
  | error e =>
    unfold update_instance_status at h
    rw [hg] at h
    simp at h
  | ok ns =>
    unfold update_instance_status at h
    rw [hg] at h
    have hs1 : states1 = merge states ns := by
      have := congrArg Prod.fst h
      simpa using this.symm
    unfold update_instance_status
    rw [hg, hs1]
    simp [merge_idem ns (get_ok_nodup config t r ns hg) states]

/-- C9 witness: a concrete second reconciliation with the same payload
returns the first result unchanged. -/
theorem C9_reconciliation_idempotent_witness :
    update_instance_status sampleConfigs (merge [] sampleStates) 200 okQuery
      = (merge [] sampleStates, none) :=
  C9_reconciliation_idempotent sampleConfigs 200 okQuery [] (merge [] sampleStates) rfl
